import Mathlib

/-!
Verification development for the `fcntllock` package (src/main.go).

The Go code is shallowly embedded as pure Lean functions.  OS syscalls
(`os.Stat`, `os.MkdirAll`, `os.OpenFile`, `syscall.FcntlFlock`) are modelled
by an explicit environment `Env` of oracles; the fcntl oracle additionally
takes a logical clock so that repeated lock requests may have different
outcomes over time (contention appearing or disappearing).  A Go
`context.Context` is modelled by `Ctx`: its `Err()` value at entry, and for
each wait of the retry loop, whether the `ctx.Done()` branch of the `select`
wins against the `time.After(retryDelay)` timer and which error `ctx.Err()`
then reports.  Every operation also returns the list of external `Event`s it
performed, in order, so that "is executed exactly once", "no descriptor
leaks" and "never retries" become statements about traces.
-/

namespace Fcntllock

/-- OS error classification, as far as the code inspects it
(`os.IsNotExist` is the only classification the source performs). -/
inductive OsErr where
  | notExist : OsErr
  | notADir : OsErr
  | permission : OsErr
  | other : Nat → OsErr
deriving DecidableEq

/-- `os.IsNotExist` on the modelled OS errors. -/
def OsErr.isNotExist : OsErr → Bool
  | .notExist => true
  | _ => false

/-- A Go `context.Context` error value: `context.Canceled` or
`context.DeadlineExceeded`. -/
inductive CtxErr where
  | canceled : CtxErr
  | deadlineExceeded : CtxErr
deriving DecidableEq

/-- A Go `error` value as produced by this package: the
`errors.New("already exists and is not directory: " + dir)` value of
`createLockDir`, an OS error passed through, or a context error. -/
inductive GoErr where
  | notADirectory : String → GoErr
  | os : OsErr → GoErr
  | ctx : CtxErr → GoErr
deriving DecidableEq

/-- The `Error()` string of the modelled errors; only the
`notADirectory` message is produced by this package itself
(src/main.go line 127). -/
def GoErr.message : GoErr → String
  | .notADirectory dir => "already exists and is not directory: " ++ dir
  | .os _ => "os error"
  | .ctx .canceled => "context canceled"
  | .ctx .deadlineExceeded => "context deadline exceeded"

/-- Result of `os.Stat` that the code looks at: `IsDir()`. -/
structure FileInfo where
  isDir : Bool
deriving DecidableEq

/-- The fcntl command: `F_SETLK` (non blocking) or `F_SETLKW` (blocking). -/
inductive FcntlCmd where
  | setlk : FcntlCmd
  | setlkw : FcntlCmd
deriving DecidableEq

/-- The `Flock_t.Type` field: `F_WRLCK` or `F_UNLCK`. -/
inductive LockType where
  | wrlck : LockType
  | unlck : LockType
deriving DecidableEq

/-- Externally observable actions performed by the code, in order. -/
inductive Event where
  | stat : String → Event
  | mkdirAll : String → Nat → Event
  | openFile : String → Event
  | flock : Nat → FcntlCmd → LockType → Nat → Event
  | close : Nat → Event
  | ctxCheck : Event
  | wait : Nat → Event
deriving DecidableEq

/-- `true` iff the event is a `Close` of a file. -/
def Event.isClose : Event → Bool
  | .close _ => true
  | _ => false

/-- Number of `os.Stat` calls in a trace (each `createLockDir`
execution performs exactly one). -/
def countStat (evs : List Event) : Nat :=
  (evs.filter fun ev => match ev with | .stat _ => true | _ => false).length

/-- Number of exclusive-lock (`F_WRLCK`) fcntl requests in a trace,
i.e. the number of actual lock attempts issued. -/
def countAttempts (evs : List Event) : Nat :=
  (evs.filter fun ev => match ev with | .flock _ _ .wrlck _ => true | _ => false).length

/-- Number of retry-loop waits (`select` on `ctx.Done()` / `time.After`). -/
def countWait (evs : List Event) : Nat :=
  (evs.filter fun ev => match ev with | .wait _ => true | _ => false).length

/-- Number of direct `ctx.Err()` checks. -/
def countCtxCheck (evs : List Event) : Nat :=
  (evs.filter fun ev => match ev with | .ctxCheck => true | _ => false).length

/-- The environment of OS oracles.  `flock` takes a logical clock (advanced
by one at each fcntl call) so a request can fail at one time and succeed
later; `stat`, `mkdirAll` and `openFile` are deterministic in the path,
which is enough for every claim considered here. -/
structure Env where
  pid : Nat
  stat : String → Except OsErr FileInfo
  mkdirAll : String → Option OsErr
  openFile : String → Except OsErr Nat
  flock : Nat → Nat → FcntlCmd → LockType → Option OsErr

/-- The caller's context: `errAtEntry` is `ctx.Err()` when the retry loop
is entered; for the `i`-th wait of the loop, `waitFires i` tells whether
the `ctx.Done()` case of the `select` fires (instead of the retry timer),
and `errAtWait i` is the (necessarily non-nil) `ctx.Err()` observed then. -/
structure Ctx where
  errAtEntry : Option CtxErr
  waitFires : Nat → Bool
  errAtWait : Nat → CtxErr

/- ---------------------------------------------------------------------
Unix `path/filepath.Dir`, translated from the Go standard library
(`filepath.Dir` and `filepath.Clean` with `/` as the only separator and an
empty volume name).  Only evaluation is ever needed; no lemmas are proved
about it. -/

/-- Character of a list at an index (the default is never reached on the
indices the cleaning algorithm uses). -/
def charAt (l : List Char) (i : Nat) : Char := l.getD i ' '

/-- `os.IsPathSeparator` on Unix. -/
def isSep (c : Char) : Bool := c == '/'

/-- The inner backtracking loop of `Clean` for a `..` element:
starting from `w`, keep decrementing while above `dotdot` and the buffer
character at the current position is not a separator. -/
def cleanBacktrack (out : List Char) (dotdot : Nat) : Nat → Nat
  | 0 => 0
  | w + 1 =>
      if w + 1 > dotdot && !isSep (charAt out (w + 1)) then cleanBacktrack out dotdot w
      else w + 1

/-- The inner copying loop of `Clean`'s default case: copy characters of
the current path element until the next separator or the end. -/
def cleanCopy (p : List Char) (n : Nat) : Nat → Nat → List Char → Nat × List Char
  | 0, r, out => (r, out)
  | fuel + 1, r, out =>
      if r < n && !isSep (charAt p r) then cleanCopy p n fuel (r + 1) (out ++ [charAt p r])
      else (r, out)

/-- Main loop of `filepath.Clean`; `fuel` dominates the number of
remaining characters so the recursion is structural. -/
def cleanAux (p : List Char) (n : Nat) (rooted : Bool) :
    Nat → Nat → List Char → Nat → List Char
  | 0, _, out, _ => out
  | fuel + 1, r, out, dotdot =>
      if n ≤ r then out
      else if isSep (charAt p r) then
        cleanAux p n rooted fuel (r + 1) out dotdot
      else if charAt p r == '.' && (r + 1 == n || isSep (charAt p (r + 1))) then
        cleanAux p n rooted fuel (r + 1) out dotdot
      else if charAt p r == '.' && charAt p (r + 1) == '.' &&
          (r + 2 == n || isSep (charAt p (r + 2))) then
        if dotdot < out.length then
          cleanAux p n rooted fuel (r + 2) (out.take (cleanBacktrack out dotdot (out.length - 1))) dotdot
        else if !rooted then
          let out1 := if 0 < out.length then out ++ ['/'] else out
          let out2 := out1 ++ ['.', '.']
          cleanAux p n rooted fuel (r + 2) out2 out2.length
        else
          cleanAux p n rooted fuel (r + 2) out dotdot
      else
        let out1 := if (rooted && out.length != 1) || (!rooted && out.length != 0)
          then out ++ ['/'] else out
        let rc := cleanCopy p n (n + 1) r out1
        cleanAux p n rooted fuel rc.1 rc.2 dotdot

/-- `filepath.Clean` on Unix. -/
def clean (path : String) : String :=
  if path = "" then "."
  else
    let p := path.data
    let n := p.length
    let rooted := isSep (charAt p 0)
    let r0 := if rooted then 1 else 0
    let out0 : List Char := if rooted then ['/'] else []
    let dd0 := if rooted then 1 else 0
    let out := cleanAux p n rooted (n + 1) r0 out0 dd0
    if out.length = 0 then "." else String.mk out

/-- Index one past the last path separator of `p` scanning downward
(0 when there is none): the slice bound `i+1` of `filepath.Dir`. -/
def lastElemStart (p : List Char) : Nat → Nat
  | 0 => 0
  | i + 1 => if isSep (charAt p i) then i + 1 else lastElemStart p i

/-- `filepath.Dir` on Unix: everything up to and including the final
separator, cleaned. -/
def filepathDir (path : String) : String :=
  clean (String.mk (path.data.take (lastElemStart path.data path.data.length)))

/- ---------------------------------------------------------------------
The embedded package. -/

/-- The `Lock` struct of src/main.go.  The embedded
`ReadWriteSeekCloser` field is `resource`: `some h` holds the handle of
the open lock file (identified by its descriptor number), `none` is Go's
`nil`.  `fd` is the `uintptr` field, zero-valued at construction. -/
structure Lock where
  path : String
  resource : Option Nat := none
  fd : Nat := 0
deriving DecidableEq

/-- `var lockDirPerm os.FileMode = 0700` from src/main.go. -/
def lockDirPerm : Nat := 0o700

/-- `func New(path string) Locker` from src/main.go: only the path is
set; every other field keeps its zero value. -/
def New (path : String) : Lock :=
  { path := path }

/-- `func createLockDir(path string) (err error)` from src/main.go:
stat the parent directory; succeed if it is a directory, fail with the
`already exists and is not directory` error if it exists otherwise,
`os.MkdirAll` it when it does not exist, and surface any other stat
error as-is. -/
def createLockDir (env : Env) (path : String) : Option GoErr × List Event :=
  let dir := filepathDir path
  match env.stat dir with
  | .ok info =>
      if info.isDir then (none, [.stat dir])
      else (some (.notADirectory dir), [.stat dir])
  | .error e =>
      if e.isNotExist then
        match env.mkdirAll dir with
        | some me => (some (.os me), [.stat dir, .mkdirAll dir lockDirPerm])
        | none => (none, [.stat dir, .mkdirAll dir lockDirPerm])
      else (some (.os e), [.stat dir])

/-- `func (lck *Lock) lock(blocking bool) (err error)` from src/main.go.
If no resource is open, open the lock file (recording its descriptor in
`fd` and the handle in the embedded field); then issue the fcntl
exclusive-lock request at `fd`; on fcntl failure, `Close` the resource
and set the embedded field to `nil` (the `fd` field is left as is).
Returns the updated `Lock`, the error, the advanced clock and the
events performed. -/
def Lock.lock (lck : Lock) (env : Env) (clock : Nat) (blocking : Bool) :
    Lock × Option GoErr × Nat × List Event :=
  let cmd := if blocking then FcntlCmd.setlkw else FcntlCmd.setlk
  match lck.resource with
  | none =>
      match env.openFile lck.path with
      | .error e => (lck, some (.os e), clock, [.openFile lck.path])
      | .ok f =>
          let lck1 : Lock := { lck with fd := f, resource := some f }
          match env.flock clock lck1.fd cmd .wrlck with
          | some e =>
              ({ lck1 with resource := none }, some (.os e), clock + 1,
               [.openFile lck.path, .flock lck1.fd cmd .wrlck env.pid, .close f])
          | none =>
              (lck1, none, clock + 1,
               [.openFile lck.path, .flock lck1.fd cmd .wrlck env.pid])
  | some r =>
      match env.flock clock lck.fd cmd .wrlck with
      | some e =>
          ({ lck with resource := none }, some (.os e), clock + 1,
           [.flock lck.fd cmd .wrlck env.pid, .close r])
      | none =>
          (lck, none, clock + 1, [.flock lck.fd cmd .wrlck env.pid])

/-- `func (lck *Lock) TryLock() error` from src/main.go: `createLockDir`
then `lck.lock(false)`. -/
def Lock.TryLock (lck : Lock) (env : Env) (clock : Nat) :
    Lock × Option GoErr × Nat × List Event :=
  match createLockDir env lck.path with
  | (some e, evs) => (lck, some e, clock, evs)
  | (none, evs) =>
      match lck.lock env clock false with
      | (lck1, r, clock1, evs1) => (lck1, r, clock1, evs ++ evs1)

/-- `func (lck Lock) UnLock() (err error)` from src/main.go: a value
receiver that only issues `FcntlFlock(lck.fd, F_SETLK, F_UNLCK)` (with
`Pid: 0`) and returns its result; the `Lock` itself is not changed. -/
def Lock.UnLock (lck : Lock) (env : Env) (clock : Nat) :
    Lock × Option GoErr × Nat × List Event :=
  (lck, (env.flock clock lck.fd .setlk .unlck).map .os, clock + 1,
   [.flock lck.fd .setlk .unlck 0])

/-- The `for` loop of `func (lck *Lock) try` from src/main.go: call
`fn`; return on success; otherwise `select` between `ctx.Done()`
(return `ctx.Err()`) and the retry timer (loop again).  `fuel` bounds
the number of iterations; `none` means the loop was still running when
the fuel ran out. -/
def tryLoop (ctx : Ctx) (fn : Lock → Nat → Lock × Option GoErr × Nat × List Event) :
    Nat → Nat → Nat → Lock → Option (Lock × Option GoErr × List Event)
  | 0, _, _, _ => none
  | fuel + 1, w, clock, lck =>
      match fn lck clock with
      | (lck1, none, _, evs) => some (lck1, none, evs)
      | (lck1, some _, clock1, evs) =>
          if ctx.waitFires w then
            some (lck1, some (.ctx (ctx.errAtWait w)), evs ++ [.wait w])
          else
            match tryLoop ctx fn fuel (w + 1) clock1 lck1 with
            | none => none
            | some (lck2, r2, evs2) => some (lck2, r2, evs ++ .wait w :: evs2)

/-- `func (lck *Lock) try(ctx, fn, retryDelay) error` from src/main.go:
check `ctx.Err()` once at entry (returning it when non-nil, before any
call to `fn`), then run the retry loop.  `retryDelay` has no observable
effect in the model (real-time waiting is abstracted into
`Ctx.waitFires`) but is kept for signature fidelity. -/
def Lock.try (lck : Lock) (ctx : Ctx)
    (fn : Lock → Nat → Lock × Option GoErr × Nat × List Event)
    (retryDelay : Nat) (fuel clock : Nat) : Option (Lock × Option GoErr × List Event) :=
  match ctx.errAtEntry with
  | some e => some (lck, some (.ctx e), [.ctxCheck])
  | none =>
      match tryLoop ctx fn fuel 0 clock lck with
      | none => none
      | some (lck1, r, evs) => some (lck1, r, .ctxCheck :: evs)

/-- `func (lck *Lock) LockContext(ctx, retryDelay) error` from
src/main.go: `createLockDir` once, then `lck.try(ctx, lck.TryLock,
retryDelay)` — note that the retried function is `TryLock`, which
itself begins with `createLockDir`. -/
def Lock.LockContext (lck : Lock) (env : Env) (ctx : Ctx)
    (retryDelay : Nat) (fuel clock : Nat) : Option (Lock × Option GoErr × List Event) :=
  match createLockDir env lck.path with
  | (some e, evs) => some (lck, some e, evs)
  | (none, evs) =>
      match lck.try ctx (fun l c => l.TryLock env c) retryDelay fuel clock with
      | none => none
      | some (lck1, r, evs1) => some (lck1, r, evs ++ evs1)

/-- Modelled from the spec: the OS response to an fcntl unlock request is
not code of this repository (it is the `fcntl` syscall).  §4.4 of the spec
defines issuing an unlock (`F_UNLCK` via `F_SETLK`) against the
never-populated default/zero lock descriptor to be a successful no-op.
An environment with that property: -/
def Env.unlockZeroNoOp (env : Env) : Prop :=
  ∀ c, env.flock c 0 .setlk .unlck = none

/-- The trace of a retry-loop run in which every attempt finds the parent
directory present, opens the file as descriptor `f`, and the first `k`
fcntl requests fail (closing `f` each time and waiting) while attempt
`k` succeeds; `w` is the index of the first wait. -/
def scriptedTrace (dir pa : String) (f pid : Nat) : Nat → Nat → List Event
  | _, 0 => [.stat dir, .openFile pa, .flock f .setlk .wrlck pid]
  | w, k + 1 => .stat dir :: .openFile pa :: .flock f .setlk .wrlck pid :: .close f :: .wait w ::
      scriptedTrace dir pa f pid (w + 1) k

/- Concrete environments and contexts used to evaluate the code at
specific inputs (witnesses and counterexamples). -/

/-- Parent directory exists, lock is free: any single attempt succeeds. -/
def envFree : Env :=
  { pid := 42, stat := fun _ => .ok ⟨true⟩, mkdirAll := fun _ => none,
    openFile := fun _ => .ok 3, flock := fun _ _ _ _ => none }

/-- A context that is already done (deadline exceeded) on entry. -/
def ctxDone : Ctx :=
  { errAtEntry := some .deadlineExceeded, waitFires := fun _ => false,
    errAtWait := fun _ => .deadlineExceeded }

/-- Parent directory exists; the first exclusive-lock request (clock 0)
is denied, every later one succeeds. -/
def envSecondTry : Env :=
  { pid := 42, stat := fun _ => .ok ⟨true⟩, mkdirAll := fun _ => none,
    openFile := fun _ => .ok 3,
    flock := fun c _ _ typ => if typ == .wrlck && c == 0 then some (.other 5) else none }

/-- A live context: never done at entry, timer always wins the select. -/
def ctxLive : Ctx :=
  { errAtEntry := none, waitFires := fun _ => false, errAtWait := fun _ => .canceled }

/-- A context whose deadline has expired after entry: the timer still wins
every select, and `ctx.Err()` would report the expired deadline. -/
def ctxExpiredTimerWins : Ctx :=
  { errAtEntry := none, waitFires := fun _ => false,
    errAtWait := fun _ => .deadlineExceeded }

/-- Opening the lock file always fails with a permission error. -/
def envOpenDenied : Env :=
  { pid := 7, stat := fun _ => .ok ⟨true⟩, mkdirAll := fun _ => none,
    openFile := fun _ => .error .permission, flock := fun _ _ _ _ => none }

/-- Every exclusive-lock request is denied (the file stays locked
elsewhere); unlock requests succeed. -/
def envAlwaysHeld : Env :=
  { pid := 9, stat := fun _ => .ok ⟨true⟩, mkdirAll := fun _ => none,
    openFile := fun _ => .ok 5,
    flock := fun _ _ _ typ => if typ == .wrlck then some (.other 7) else none }

/-- The parent path exists but is a regular file, not a directory. -/
def envParentIsFile : Env :=
  { pid := 3, stat := fun _ => .ok ⟨false⟩, mkdirAll := fun _ => none,
    openFile := fun _ => .ok 4, flock := fun _ _ _ _ => none }

/-- Unlock requests succeed, exclusive-lock requests are denied. -/
def envUnlockOk : Env :=
  { pid := 1, stat := fun _ => .ok ⟨true⟩, mkdirAll := fun _ => none,
    openFile := fun _ => .ok 3,
    flock := fun _ _ _ typ => match typ with | .unlck => none | .wrlck => some (.other 1) }

/-- A context that fires (cancellation) at the very first wait. -/
def ctxFiresFirstWait : Ctx :=
  { errAtEntry := none, waitFires := fun _ => true, errAtWait := fun _ => .canceled }

/-- An attempt function that always fails with an OS error (used to
exercise the retry loop on its own, as `try` takes `fn` as a value). -/
def fnAlwaysFails : Lock → Nat → Lock × Option GoErr × Nat × List Event :=
  fun l c => (l, some (.os (.other 3)), c, [])

/-! ## Theorems -/

/-- C7: `UnLock` never closes the underlying resource and never clears the
resource field: for every `Lock` state, after an `UnLock` call the `Lock`
(hence its `resource` field, and the open file it denotes) is exactly as it
was before the call, and the call's trace contains no `Close` of any file. -/
theorem unlock_preserves_resource :
    ∀ (env : Env) (c : Nat) (lck : Lock),
      (lck.UnLock env c).1 = lck ∧
      ((lck.UnLock env c).2.2.2).all (fun ev => !ev.isClose) = true := by
  intro env c lck
  exact ⟨rfl, rfl⟩

/-- C9: if opening the lock file fails during an attempt (the resource was
absent and the open returns an error), the attempt returns that error with
the `Lock` state unchanged (`resource` stays absent, `fd` keeps its prior
value) and its trace is the single open call: no lock request is issued and
nothing is closed. -/
theorem lock_open_failure_state_unchanged :
    ∀ (env : Env) (c : Nat) (lck : Lock) (e : OsErr),
      lck.resource = none → env.openFile lck.path = .error e →
      lck.lock env c false = (lck, some (.os e), c, [Event.openFile lck.path]) := by
  intro env c lck e hres hopen
  simp [Lock.lock, hres, hopen]

/-- Witness for C9 at a concrete input: open denied with a permission
error on a fresh lock leaves the fresh state untouched. -/
theorem lock_open_failure_state_unchanged_witness :
    (New "/x/y").lock envOpenDenied 0 false =
      (New "/x/y", some (.os .permission), 0, [Event.openFile "/x/y"]) :=
  lock_open_failure_state_unchanged envOpenDenied 0 (New "/x/y") .permission rfl rfl

/-- C8: after a failed fcntl lock request on a just-opened file `f`, the
attempt clears only the resource field but leaves the `fd` field holding
the descriptor number of the now-closed file; a subsequent `UnLock` issues
its unlock request against that stale closed descriptor `f` — not against
the zero value (under `f ≠ 0`). -/
theorem failed_attempt_stale_fd :
    ∀ (env : Env) (c : Nat) (lck : Lock) (f : Nat) (e : OsErr),
      lck.resource = none → env.openFile lck.path = .ok f →
      env.flock c f .setlk .wrlck = some e → f ≠ 0 →
      (lck.lock env c false).1.fd = f ∧
      (lck.lock env c false).1.resource = none ∧
      (lck.lock env c false).2.1 = some (.os e) ∧
      Event.close f ∈ (lck.lock env c false).2.2.2 ∧
      (∀ c2, ((lck.lock env c false).1.UnLock env c2).2.2.2 =
        [Event.flock f .setlk .unlck 0]) ∧
      (∀ c2, ((lck.lock env c false).1.UnLock env c2).2.2.2 ≠
        [Event.flock 0 .setlk .unlck 0]) := by
  intro env c lck f e hres hopen hflock hf
  simp [Lock.lock, hres, hopen, hflock, Lock.UnLock, hf]

/-- Witness for C8 at a concrete input: a contended first attempt on a
fresh lock leaves `fd = 5` pointing at the closed file, and `UnLock` then
targets descriptor 5. -/
theorem failed_attempt_stale_fd_witness :
    ((New "/a/b").lock envAlwaysHeld 0 false).1.fd = 5 ∧
    (((New "/a/b").lock envAlwaysHeld 0 false).1.UnLock envAlwaysHeld 1).2.2.2 =
      [Event.flock 5 .setlk .unlck 0] := by
  have h := failed_attempt_stale_fd envAlwaysHeld 0 (New "/a/b") 5 (.other 7) rfl rfl rfl
    (by decide)
  exact ⟨h.1, h.2.2.2.2.1 1⟩

/-- C4: for every `Lock` on which no lock was ever acquired, so that the
`fd` field still holds its zero value (as it does after `New`), `UnLock`
returns success: under the spec-modelled OS semantics
(`Env.unlockZeroNoOp`) the unlock request against the never-populated
descriptor is a successful no-op, not an error. -/
theorem unlock_never_locked_success :
    ∀ (env : Env), env.unlockZeroNoOp →
      ∀ (c : Nat) (lck : Lock), lck.fd = 0 →
        (lck.UnLock env c).2.1 = none ∧ (lck.UnLock env c).1 = lck ∧
        ∀ pa, (New pa).fd = 0 := by
  intro env hno c lck hfd
  refine ⟨?_, rfl, fun pa => rfl⟩
  simp [Lock.UnLock, hfd, hno c]

/-- Witness for C4 at a concrete input: a freshly constructed lock
unlocks successfully. -/
theorem unlock_never_locked_success_witness :
    ((New "/w").UnLock envUnlockOk 0).2.1 = none ∧
    ((New "/w").UnLock envUnlockOk 0).1 = New "/w" ∧ (New "/q").fd = 0 := by
  have h := unlock_never_locked_success envUnlockOk (fun c => rfl) 0 (New "/w") rfl
  exact ⟨h.1, h.2.1, h.2.2 "/q"⟩

/-- C5: for every lock path whose parent exists but is not a directory,
`createLockDir` (and hence both `TryLock` and `LockContext`) fails
immediately with the `notADirectory` error whose message names the
offending parent path; the trace is the single stat call — the directory
is never created (no `mkdirAll` event) and there is no retry (no lock
attempt, no wait). -/
theorem notadirectory_fail_fast :
    ∀ (env : Env) (pa : String) (info : FileInfo) (ctx : Ctx) (rd fuel c : Nat) (lck : Lock),
      env.stat (filepathDir pa) = .ok info → info.isDir = false → lck.path = pa →
      createLockDir env pa =
        (some (.notADirectory (filepathDir pa)), [.stat (filepathDir pa)]) ∧
      lck.TryLock env c =
        (lck, some (.notADirectory (filepathDir pa)), c, [.stat (filepathDir pa)]) ∧
      lck.LockContext env ctx rd fuel c =
        some (lck, some (.notADirectory (filepathDir pa)), [.stat (filepathDir pa)]) ∧
      ∃ pre, GoErr.message (.notADirectory (filepathDir pa)) = pre ++ filepathDir pa := by
  intro env pa info ctx rd fuel c lck hstat hdir hpath
  have hcreate : createLockDir env pa =
      (some (.notADirectory (filepathDir pa)), [.stat (filepathDir pa)]) := by
    simp [createLockDir, hstat, hdir]
  refine ⟨hcreate, ?_, ?_, ⟨"already exists and is not directory: ", rfl⟩⟩
  · simp [Lock.TryLock, hpath, hcreate]
  · simp [Lock.LockContext, hpath, hcreate]

/-- Witness for C5 at a concrete input: with `/tmp/f` a regular file,
locking `/tmp/f/lck` fails fast with the error naming `/tmp/f`. -/
theorem notadirectory_fail_fast_witness :
    createLockDir envParentIsFile "/tmp/f/lck" =
      (some (.notADirectory "/tmp/f"), [.stat "/tmp/f"]) ∧
    (New "/tmp/f/lck").TryLock envParentIsFile 0 =
      (New "/tmp/f/lck", some (.notADirectory "/tmp/f"), 0, [.stat "/tmp/f"]) := by
  have h := notadirectory_fail_fast envParentIsFile "/tmp/f/lck" ⟨false⟩ ctxLive 1 1 0
    (New "/tmp/f/lck") rfl rfl rfl
  have e : filepathDir "/tmp/f/lck" = "/tmp/f" := by decide
  rw [e] at h
  exact ⟨h.1, h.2.1⟩

/-- C3: in every single lock attempt, if the non-blocking fcntl request
fails after the file was opened (a `flock` `F_WRLCK` event appears in the
attempt's trace, whether the file was just opened or previously open), the
attempt closes the open resource (a `Close` event appears) and clears the
resource field before returning the failure; and after every attempt the
invariant holds that the resource is present iff the attempt returned
success, so no descriptor leaks across repeated failed attempts. -/
theorem lock_failed_request_cleanup :
    (∀ (env : Env) (c : Nat) (lck lck2 : Lock) (e : GoErr) (c2 : Nat) (evs : List Event),
        lck.lock env c false = (lck2, some e, c2, evs) →
        (∃ fd pid, Event.flock fd .setlk .wrlck pid ∈ evs) →
        lck2.resource = none ∧ ∃ g, Event.close g ∈ evs) ∧
    (∀ (env : Env) (c : Nat) (lck : Lock),
        ((lck.lock env c false).1.resource).isSome = ((lck.lock env c false).2.1).isNone) := by
  constructor
  · intro env c lck lck2 e c2 evs h hflk
    simp only [Lock.lock] at h
    split at h
    · -- resource was nil: open, then maybe lock
      split at h
      · -- open failed: the trace has no flock event, contradiction
        simp only [Prod.mk.injEq] at h
        obtain ⟨-, -, -, h4⟩ := h
        subst h4
        rcases hflk with ⟨fd, pid, hm⟩
        simp at hm
      · split at h
        · -- fcntl failed on the just-opened file: cleaned up
          simp only [Prod.mk.injEq] at h
          obtain ⟨h1, -, -, h4⟩ := h
          subst h4
          refine ⟨?_, by simp⟩
          rw [← h1]
        · -- fcntl succeeded: no error, contradiction
          simp at h
    · -- resource was already open
      split at h
      · -- fcntl failed on the previously-open file: cleaned up
        simp only [Prod.mk.injEq] at h
        obtain ⟨h1, -, -, h4⟩ := h
        subst h4
        refine ⟨?_, by simp⟩
        rw [← h1]
      · simp at h
  · intro env c lck
    simp only [Lock.lock]
    split
    · split
      · simp_all
      · split <;> simp_all
    · split <;> simp_all

/-- Witness for C3 at a concrete input: a contended attempt on a fresh
lock ends with the resource cleared and a `Close` in its trace. -/
theorem lock_failed_request_cleanup_witness :
    ({ path := "/a/b", resource := none, fd := 5 } : Lock).resource = none ∧
    ∃ g, Event.close g ∈
      [Event.openFile "/a/b", Event.flock 5 .setlk .wrlck 9, Event.close 5] :=
  lock_failed_request_cleanup.1 envAlwaysHeld 0 (New "/a/b")
    { path := "/a/b", resource := none, fd := 5 } (.os (.other 7)) 1
    [Event.openFile "/a/b", Event.flock 5 .setlk .wrlck 9, Event.close 5]
    (by decide) ⟨5, 9, by decide⟩

/-- Every error returned by the retry loop proper comes from the
`ctx.Done()` branch of the `select` at some wait: it is `ctx.Err()` as
observed there, and that wait did fire. -/
theorem tryLoop_error_from_wait :
    ∀ (fuel : Nat) (ctx : Ctx) (fn : Lock → Nat → Lock × Option GoErr × Nat × List Event)
      (w c : Nat) (lck lck2 : Lock) (e : GoErr) (evs : List Event),
      tryLoop ctx fn fuel w c lck = some (lck2, some e, evs) →
      ∃ i, e = .ctx (ctx.errAtWait i) ∧ ctx.waitFires i = true ∧ Event.wait i ∈ evs := by
  intro fuel
  induction fuel with
  | zero => intro ctx fn w c lck lck2 e evs h; simp [tryLoop] at h
  | succ fuel ih =>
      intro ctx fn w c lck lck2 e evs h
      rcases hfn : fn lck c with ⟨lck1, r1, c1, evs1⟩
      rcases r1 with _ | e1
      · rw [tryLoop, hfn] at h
        simp at h
      · rw [tryLoop, hfn] at h
        by_cases hw : ctx.waitFires w
        · simp only [hw, if_true, Option.some.injEq, Prod.mk.injEq] at h
          obtain ⟨-, h2, h3⟩ := h
          subst h3
          exact ⟨w, h2.symm, hw, by simp⟩
        · simp only [hw, if_false, Bool.false_eq_true] at h
          rcases hrec : tryLoop ctx fn fuel (w + 1) c1 lck1 with _ | res
          · rw [hrec] at h; simp at h
          · rcases res with ⟨lck3, r3, evs3⟩
            rw [hrec] at h
            simp only [Option.some.injEq, Prod.mk.injEq] at h
            obtain ⟨-, h2, h3⟩ := h
            subst h3
            rw [h2] at hrec
            obtain ⟨i, hi1, hi2, hi3⟩ := ih ctx fn (w + 1) c1 lck1 lck3 e evs3 hrec
            exact ⟨i, hi1, hi2,
              List.mem_append_right _ (List.mem_cons_of_mem _ hi3)⟩

/-- C6: in every call to the retry entry point whose context is not done
at entry, if the run returns an error at all, that error is the
cancellation/timeout error observed at the wait where the cancellation
signal fired — never the last lock-attempt error: cancellation is never
reported as a lock failure (and lock failures are never reported by the
loop, which retries them). -/
theorem try_error_is_cancellation :
    ∀ (ctx : Ctx) (fn : Lock → Nat → Lock × Option GoErr × Nat × List Event)
      (rd fuel c : Nat) (lck lck2 : Lock) (e : GoErr) (evs : List Event),
      ctx.errAtEntry = none →
      lck.try ctx fn rd fuel c = some (lck2, some e, evs) →
      ∃ i, e = GoErr.ctx (ctx.errAtWait i) ∧ ctx.waitFires i = true := by
  intro ctx fn rd fuel c lck lck2 e evs hentry h
  simp only [Lock.try, hentry] at h
  rcases hrec : tryLoop ctx fn fuel 0 c lck with _ | res
  · rw [hrec] at h; simp at h
  · rcases res with ⟨l1, r1, evs1⟩
    rw [hrec] at h
    simp only [Option.some.injEq, Prod.mk.injEq] at h
    obtain ⟨-, h2, -⟩ := h
    rw [h2] at hrec
    obtain ⟨i, hi1, hi2, -⟩ := tryLoop_error_from_wait fuel ctx fn 0 c lck l1 e evs1 hrec
    exact ⟨i, hi1, hi2⟩

/-- Witness for C6 at a concrete input: with the signal firing at the
first wait after a failed attempt, the returned error is the context's
cancellation error. -/
theorem try_error_is_cancellation_witness :
    ∃ i, GoErr.ctx CtxErr.canceled = GoErr.ctx (ctxFiresFirstWait.errAtWait i) ∧
      ctxFiresFirstWait.waitFires i = true :=
  try_error_is_cancellation ctxFiresFirstWait fnAlwaysFails 5 4 0 (New "/w6") (New "/w6")
    (GoErr.ctx CtxErr.canceled) [Event.ctxCheck, Event.wait 0] rfl rfl

/-- Stat-call count of a scripted run: one per attempt. -/
theorem countStat_scripted (dir pa : String) (f pid : Nat) :
    ∀ (k w : Nat), countStat (scriptedTrace dir pa f pid w k) = k + 1 := by
  intro k
  induction k with
  | zero => intro w; rfl
  | succ k ih =>
      intro w
      have h := ih (w + 1)
      simp only [countStat, scriptedTrace, List.filter, List.length_cons] at h ⊢
      omega

/-- Wait count of a scripted run: one per failed attempt. -/
theorem countWait_scripted (dir pa : String) (f pid : Nat) :
    ∀ (k w : Nat), countWait (scriptedTrace dir pa f pid w k) = k := by
  intro k
  induction k with
  | zero => intro w; rfl
  | succ k ih =>
      intro w
      have h := ih (w + 1)
      simp only [countWait, scriptedTrace, List.filter, List.length_cons] at h ⊢
      omega

/-- The retry loop itself never consults `ctx.Err()` directly: no
`ctxCheck` event in a scripted run's loop trace. -/
theorem countCtxCheck_scripted (dir pa : String) (f pid : Nat) :
    ∀ (k w : Nat), countCtxCheck (scriptedTrace dir pa f pid w k) = 0 := by
  intro k
  induction k with
  | zero => intro w; rfl
  | succ k ih =>
      intro w
      have h := ih (w + 1)
      simp only [countCtxCheck, scriptedTrace, List.filter, List.length_cons] at h ⊢
      omega

/-- One step of the retry loop when the attempt succeeds: return
immediately with the attempt's trace, consulting nothing else. -/
theorem tryLoop_step_succ (ctx : Ctx)
    (fn : Lock → Nat → Lock × Option GoErr × Nat × List Event)
    (fuel w c : Nat) (lck lck1 : Lock) (c1 : Nat) (evs : List Event)
    (hfn : fn lck c = (lck1, none, c1, evs)) :
    tryLoop ctx fn (fuel + 1) w c lck = some (lck1, none, evs) := by
  simp only [tryLoop, hfn]

/-- One step of the retry loop when the attempt fails and the retry
timer (not the cancellation signal) wins the select: wait, then loop. -/
theorem tryLoop_step_fail (ctx : Ctx)
    (fn : Lock → Nat → Lock × Option GoErr × Nat × List Event)
    (fuel w c : Nat) (lck lck1 : Lock) (e : GoErr) (c1 : Nat) (evs : List Event)
    (hfn : fn lck c = (lck1, some e, c1, evs)) (hw : ctx.waitFires w = false) :
    tryLoop ctx fn (fuel + 1) w c lck =
      match tryLoop ctx fn fuel (w + 1) c1 lck1 with
      | none => none
      | some (lck2, r2, evs2) => some (lck2, r2, evs ++ .wait w :: evs2) := by
  simp only [tryLoop, hfn, hw, Bool.false_eq_true, if_false]

/-- Characterization of the retry loop on a scripted environment: the
parent directory exists, opening yields descriptor `f`, the first `k`
fcntl requests (clocks `c0 .. c0+k-1`) are denied, the one at clock
`c0+k` succeeds, and the timer wins every select.  The loop then returns
success with the lock open on `f`, and its trace is `scriptedTrace`:
each of the `k+1` attempts re-runs the directory check (because the
retried function is `TryLock`). -/
theorem tryLoop_scripted (env : Env) (ctx : Ctx) (f : Nat)
    (hwait : ∀ i, ctx.waitFires i = false) :
    ∀ (k c0 w : Nat) (lck : Lock),
      lck.resource = none →
      env.stat (filepathDir lck.path) = .ok ⟨true⟩ →
      env.openFile lck.path = .ok f →
      (∀ t, t < k → env.flock (c0 + t) f .setlk .wrlck ≠ none) →
      env.flock (c0 + k) f .setlk .wrlck = none →
      tryLoop ctx (fun l c => l.TryLock env c) (k + 1) w c0 lck =
        some ({ lck with fd := f, resource := some f }, none,
          scriptedTrace (filepathDir lck.path) lck.path f env.pid w k) := by
  intro k
  induction k with
  | zero =>
      intro c0 w lck hres hstat hopen hfail hsucc
      have hfl : env.flock c0 f .setlk .wrlck = none := by simpa using hsucc
      have hattempt : lck.TryLock env c0 =
          ({ lck with fd := f, resource := some f }, none, c0 + 1,
           [.stat (filepathDir lck.path), .openFile lck.path,
            .flock f .setlk .wrlck env.pid]) := by
        simp [Lock.TryLock, createLockDir, Lock.lock, hres, hstat, hopen, hfl]
      rw [tryLoop_step_succ ctx _ 0 w c0 lck _ _ _ hattempt]
      simp [scriptedTrace]
  | succ k ih =>
      intro c0 w lck hres hstat hopen hfail hsucc
      have h0 : env.flock c0 f .setlk .wrlck ≠ none := by
        have := hfail 0 (Nat.succ_pos k)
        simpa using this
      rcases hfl0 : env.flock c0 f .setlk .wrlck with _ | e0
      · exact absurd hfl0 h0
      · have hattempt : lck.TryLock env c0 =
            ({ lck with fd := f, resource := none }, some (.os e0), c0 + 1,
             [.stat (filepathDir lck.path), .openFile lck.path,
              .flock f .setlk .wrlck env.pid, .close f]) := by
          simp [Lock.TryLock, createLockDir, Lock.lock, hres, hstat, hopen, hfl0]
        have hrec := ih (c0 + 1) (w + 1) { lck with fd := f, resource := none }
          (by simp)
          (by simpa using hstat)
          (by simpa using hopen)
          (by
            intro t ht
            have heq : c0 + 1 + t = c0 + (t + 1) := by omega
            rw [heq]
            exact hfail (t + 1) (by omega))
          (by
            have heq : c0 + 1 + k = c0 + (k + 1) := by omega
            rw [heq]
            exact hsucc)
        rw [tryLoop_step_fail ctx _ (k + 1) w c0 lck _ _ _ _ hattempt (hwait w), hrec]
        simp [scriptedTrace]

/-- C2 counterexample: the claim says the parent-directory check runs
exactly once per `LockContext` call and never inside a retry iteration,
but in this concrete terminating call (first lock request denied, second
one granted) the trace holds three stat checks: one upfront and one at
the start of each of the two attempts, because the retried function is
`TryLock`, which itself calls `createLockDir`. -/
theorem lockcontext_dir_check_not_once :
    (New "/tmp/d/lck").LockContext envSecondTry ctxLive 5 2 0 =
      some ({ path := "/tmp/d/lck", resource := some 3, fd := 3 }, none,
        [.stat "/tmp/d", .ctxCheck, .stat "/tmp/d", .openFile "/tmp/d/lck",
         .flock 3 .setlk .wrlck 42, .close 3, .wait 0, .stat "/tmp/d",
         .openFile "/tmp/d/lck", .flock 3 .setlk .wrlck 42]) ∧
    countStat
        [.stat "/tmp/d", .ctxCheck, .stat "/tmp/d", .openFile "/tmp/d/lck",
         .flock 3 .setlk .wrlck 42, .close 3, .wait 0, .stat "/tmp/d",
         .openFile "/tmp/d/lck", .flock 3 .setlk .wrlck 42] = 3 ∧
    (countStat
        [.stat "/tmp/d", .ctxCheck, .stat "/tmp/d", .openFile "/tmp/d/lck",
         .flock 3 .setlk .wrlck 42, .close 3, .wait 0, .stat "/tmp/d",
         .openFile "/tmp/d/lck", .flock 3 .setlk .wrlck 42] == 1) = false := by
  decide

/-- C2 as amended: in every `LockContext` call on a scripted run with
`k` denied lock requests before a granted one, the parent-directory
check is executed once before the retry loop begins, and additionally
once at the start of every one of the `k+1` attempts inside the loop
(each attempt is a full `TryLock`, which starts with `createLockDir`):
the trace holds `k+2` stat checks, not exactly one. -/
theorem lockcontext_dir_check_per_attempt :
    ∀ (env : Env) (ctx : Ctx) (f k c0 rd : Nat) (lck : Lock),
      ctx.errAtEntry = none →
      (∀ i, ctx.waitFires i = false) →
      lck.resource = none →
      env.stat (filepathDir lck.path) = .ok ⟨true⟩ →
      env.openFile lck.path = .ok f →
      (∀ t, t < k → env.flock (c0 + t) f .setlk .wrlck ≠ none) →
      env.flock (c0 + k) f .setlk .wrlck = none →
      lck.LockContext env ctx rd (k + 1) c0 =
        some ({ lck with fd := f, resource := some f }, none,
          .stat (filepathDir lck.path) :: .ctxCheck ::
            scriptedTrace (filepathDir lck.path) lck.path f env.pid 0 k) ∧
      countStat (.stat (filepathDir lck.path) :: .ctxCheck ::
            scriptedTrace (filepathDir lck.path) lck.path f env.pid 0 k) = k + 2 := by
  intro env ctx f k c0 rd lck hentry hwait hres hstat hopen hfail hsucc
  have hloop := tryLoop_scripted env ctx f hwait k c0 0 lck hres hstat hopen hfail hsucc
  refine ⟨?_, ?_⟩
  · simp [Lock.LockContext, createLockDir, hstat, Lock.try, hentry, hloop]
  · have h := countStat_scripted (filepathDir lck.path) lck.path f env.pid k 0
    simp only [countStat, List.filter, List.length_cons] at h ⊢
    omega

/-- Witness for the amended C2 at a concrete input (`k = 1`): one
upfront check plus one per attempt gives three stat calls. -/
theorem lockcontext_dir_check_per_attempt_witness :
    (New "/tmp/d/lck").LockContext envSecondTry ctxLive 7 2 0 =
      some ({ path := "/tmp/d/lck", resource := some 3, fd := 3 }, none,
        Event.stat (filepathDir "/tmp/d/lck") :: Event.ctxCheck ::
          scriptedTrace (filepathDir "/tmp/d/lck") "/tmp/d/lck" 3 42 0 1) ∧
    countStat (Event.stat (filepathDir "/tmp/d/lck") :: Event.ctxCheck ::
          scriptedTrace (filepathDir "/tmp/d/lck") "/tmp/d/lck" 3 42 0 1) = 3 := by
  exact lockcontext_dir_check_per_attempt envSecondTry ctxLive 3 1 0 7 (New "/tmp/d/lck")
    rfl (fun i => rfl) rfl rfl rfl
    (by
      intro t ht
      have h0 : t = 0 := by omega
      subst h0
      decide)
    rfl

/-- C10: the cancellation signal is consulted only at entry (one
`ctxCheck`) and at the select after each failed attempt (`k` waits): on
a run whose context is not done at entry, whose first `k` attempts fail
with the timer winning each select, and whose attempt `k` succeeds, the
retry entry point returns success immediately after the successful
attempt with no further consultation — regardless of the context's state
after entry (the hypotheses leave `errAtWait`, i.e. the deadline having
expired meanwhile, unconstrained), so `LockContext` can return success
even when the deadline expired during earlier waits or attempts. -/
theorem try_success_without_recheck :
    ∀ (env : Env) (ctx : Ctx) (f k c0 rd : Nat) (lck : Lock),
      ctx.errAtEntry = none →
      (∀ i, ctx.waitFires i = false) →
      lck.resource = none →
      env.stat (filepathDir lck.path) = .ok ⟨true⟩ →
      env.openFile lck.path = .ok f →
      (∀ t, t < k → env.flock (c0 + t) f .setlk .wrlck ≠ none) →
      env.flock (c0 + k) f .setlk .wrlck = none →
      lck.try ctx (fun l c => l.TryLock env c) rd (k + 1) c0 =
        some ({ lck with fd := f, resource := some f }, none,
          .ctxCheck :: scriptedTrace (filepathDir lck.path) lck.path f env.pid 0 k) ∧
      countWait (.ctxCheck ::
        scriptedTrace (filepathDir lck.path) lck.path f env.pid 0 k) = k ∧
      countCtxCheck (.ctxCheck ::
        scriptedTrace (filepathDir lck.path) lck.path f env.pid 0 k) = 1 := by
  intro env ctx f k c0 rd lck hentry hwait hres hstat hopen hfail hsucc
  have hloop := tryLoop_scripted env ctx f hwait k c0 0 lck hres hstat hopen hfail hsucc
  refine ⟨?_, ?_, ?_⟩
  · simp [Lock.try, hentry, hloop]
  · have h := countWait_scripted (filepathDir lck.path) lck.path f env.pid k 0
    simp only [countWait, List.filter, List.length_cons] at h ⊢
    omega
  · have h := countCtxCheck_scripted (filepathDir lck.path) lck.path f env.pid k 0
    simp only [countCtxCheck, List.filter, List.length_cons] at h ⊢
    omega

/-- Witness for C10 at a concrete input: the deadline expired right
after entry (`ctxExpiredTimerWins` would report it at any firing wait),
yet the second attempt's success is returned. -/
theorem try_success_without_recheck_witness :
    (New "/tmp/d/lck").try ctxExpiredTimerWins (fun l c => l.TryLock envSecondTry c) 7 2 0 =
      some ({ path := "/tmp/d/lck", resource := some 3, fd := 3 }, none,
        Event.ctxCheck ::
          scriptedTrace (filepathDir "/tmp/d/lck") "/tmp/d/lck" 3 42 0 1) ∧
    countWait (Event.ctxCheck ::
        scriptedTrace (filepathDir "/tmp/d/lck") "/tmp/d/lck" 3 42 0 1) = 1 ∧
    countCtxCheck (Event.ctxCheck ::
        scriptedTrace (filepathDir "/tmp/d/lck") "/tmp/d/lck" 3 42 0 1) = 1 := by
  exact try_success_without_recheck envSecondTry ctxExpiredTimerWins 3 1 0 7
    (New "/tmp/d/lck") rfl (fun i => rfl) rfl rfl rfl
    (by
      intro t ht
      have h0 : t = 0 := by omega
      subst h0
      decide)
    rfl

/-- C1, evaluated at the failing input: parent directory present, lock
free (the final conjunct shows a single attempt would succeed), context
already done on entry.  `LockContext` returns the context's deadline
error with zero lock attempts in its trace: the code honors the
cancellation without making the one attempt that the claim — and the
repository's own test `TestLockContext` ("LockContext give at least one
try lock even if context is already Done", which requires a nil error
here) — demands. -/
theorem lockcontext_no_attempt_when_already_done :
    (New "/tmp/d/lck").LockContext envFree ctxDone 5 10 0 =
      some (New "/tmp/d/lck", some (.ctx .deadlineExceeded),
        [.stat "/tmp/d", .ctxCheck]) ∧
    countAttempts [.stat "/tmp/d", .ctxCheck] = 0 ∧
    ((New "/tmp/d/lck").TryLock envFree 0).2.1 = none := by
  decide

end Fcntllock
